import Mathlib

/-
Verification of the Matrix component of the MNIST-Neural-Network repository
(src/src/matrix.cpp). The C++ class stores three fields: rows, cols and
data, a vector of row vectors of double. We embed it shallowly with exact
rational scalars standing for double values; every arithmetic fact checked
here involves only values whose double arithmetic is exact. Loops that
write every position exactly once with a value determined by the position
are translated to their net result via buildData; the loops of randomize
are kept operational (an explicit write sequence with guarded stores),
because the claims about randomize concern the write pattern itself, and
the loops of the matrix product keep their literal guard, which uses the
bitwise shift operator found in the source.
-/

namespace MatrixSpec

/-- Dense matrix of doubles from src/src/matrix.cpp. The C++ class keeps
rows, cols and data as separate fields; we mirror that layout, so a value
whose data does not match rows and cols is representable, and the class
invariant is the predicate WF below. -/
structure Matrix where
  rows : Nat
  cols : Nat
  data : List (List ℚ)
deriving DecidableEq, Repr

/-- The class invariant every constructor establishes: data holds exactly
rows rows, each of exactly cols elements. -/
def Matrix.WF (a : Matrix) : Prop :=
  a.data.length = a.rows ∧ ∀ r ∈ a.data, r.length = a.cols

instance (a : Matrix) : Decidable a.WF := by
  unfold Matrix.WF; infer_instance

/-- Row-major grid of values: entry (i, j) is f i j. This is the net state
of a C++ loop nest that writes every position (i, j) of a fresh
rows times cols storage exactly once with the value f i j. -/
def buildData (r c : Nat) (f : Nat → Nat → ℚ) : List (List ℚ) :=
  (List.range r).map fun i => (List.range c).map fun j => f i j

/-- Unchecked element read, data[i][j] in the source; reads outside the
storage default to 0 (the claims only ever read in bounds). -/
def Matrix.get (a : Matrix) (i j : Nat) : ℚ :=
  (a.data.getD i []).getD j 0

/-- Matrix(rows, cols, value): rows times cols storage filled with value. -/
def Matrix.mkFill (r c : Nat) (v : ℚ) : Matrix :=
  ⟨r, c, buildData r c fun _ _ => v⟩

/-- Matrix(rows, cols): rows times cols storage zero-filled. -/
def Matrix.mkZero (r c : Nat) : Matrix :=
  Matrix.mkFill r c 0

/-- Error taxonomy of the design: OutOfRange for std::out_of_range throws,
DimensionMismatch for shape checks and InvalidArgument for the non-shape
std::invalid_argument throws (division by zero, identity on non-square). -/
inductive MatrixError where
  | outOfRange
  | dimensionMismatch
  | invalidArgument
deriving DecidableEq, Repr

/-- operator+ : throws unless rows and cols both match, else element-wise
sum into a fresh rows times cols result. -/
def Matrix.add (a b : Matrix) : Except MatrixError Matrix :=
  if a.rows ≠ b.rows ∨ a.cols ≠ b.cols then .error .dimensionMismatch
  else .ok ⟨a.rows, a.cols, buildData a.rows a.cols fun i j => a.get i j + b.get i j⟩

/-- operator- : throws unless rows and cols both match, else element-wise
difference into a fresh rows times cols result. -/
def Matrix.subtract (a b : Matrix) : Except MatrixError Matrix :=
  if a.rows ≠ b.rows ∨ a.cols ≠ b.cols then .error .dimensionMismatch
  else .ok ⟨a.rows, a.cols, buildData a.rows a.cols fun i j => a.get i j - b.get i j⟩

/-- Unchecked element write data[i][j] = v on the raw storage. -/
def setAt (d : List (List ℚ)) (i j : Nat) (v : ℚ) : List (List ℚ) :=
  d.set i ((d.getD i []).set j v)

/-- The loop guard the source writes in operator* : the C++ condition is
i << rows (bitwise left shift of the size_t counter, truncated to 64 bits),
truthy when nonzero. At i = 0 it is 0 for every rows, so the loop never
runs. -/
def shiftGuard (i n : Nat) : Bool :=
  (i <<< n) % 2 ^ 64 != 0

/-- A C-style for loop: starting at counter i, while the guard holds run
the body and increment, consuming fuel so the recursion is total; the
loops embedded here exit at once, so any fuel gives their exact net
state. -/
def forLoop {St : Type} (g : Nat → Bool) (body : Nat → St → St) : Nat → Nat → St → St
  | 0, _, s => s
  | fuel + 1, i, s => if g i then forLoop g body fuel (i + 1) (body i s) else s

/-- Fuel covering the whole size_t counter range. -/
def sizeTFuel : Nat := 2 ^ 64

/-- operator* (matrix product): throws unless cols equals other.rows; then
a fresh rows times other.cols zero matrix is filled by the loop nest
for (i = 0; i << rows; ++i) for (j = 0; j << other.cols; ++j)
for (k = 0; k < cols; ++k) result(i, j) += data[i][k] * other(k, j);
the outer guards are the literal bitwise shifts of the source. -/
def Matrix.multiply (a b : Matrix) : Except MatrixError Matrix :=
  if a.cols ≠ b.rows then .error .dimensionMismatch
  else .ok (forLoop (fun i => shiftGuard i a.rows)
    (fun i m => forLoop (fun j => shiftGuard j b.cols)
      (fun j m => (List.range a.cols).foldl
        (fun m k => { m with data := setAt m.data i j (m.get i j + a.get i k * b.get k j) }) m)
      sizeTFuel 0 m)
    sizeTFuel 0 (Matrix.mkZero a.rows b.cols))

/-- operator* (scalar): element-wise product with the scalar, never
throws. -/
def Matrix.scale (a : Matrix) (s : ℚ) : Matrix :=
  ⟨a.rows, a.cols, buildData a.rows a.cols fun i j => a.get i j * s⟩

/-- operator/ : throws on a zero scalar, else returns this * (1.0 / s). -/
def Matrix.divide (a : Matrix) (s : ℚ) : Except MatrixError Matrix :=
  if s = 0 then .error .invalidArgument
  else .ok (a.scale (1 / s))

/-- operator+= : executes star-this = star-this + other; when + throws the
assignment never runs, so the exception propagates with this unchanged.
The pair returned is the final state of this together with the propagated
error, if any. -/
def Matrix.addInPlace (a b : Matrix) : Matrix × Option MatrixError :=
  match a.add b with
  | .ok r => (r, none)
  | .error e => (a, some e)

/-- operator-= : same scheme as operator+= with subtraction. -/
def Matrix.subtractInPlace (a b : Matrix) : Matrix × Option MatrixError :=
  match a.subtract b with
  | .ok r => (r, none)
  | .error e => (a, some e)

/-- transpose: fresh cols times rows result with result(j, i) = data[i][j];
no dimension check, always succeeds. -/
def Matrix.transpose (a : Matrix) : Matrix :=
  ⟨a.cols, a.rows, buildData a.cols a.rows fun p q => a.get q p⟩

/-- identity: throws unless rows equals cols; else fill(0.0) then the loop
data[i][i] = 1.0 for i < rows, whose net state has entry (i, j) equal to
1 when i = j and 0 otherwise. -/
def Matrix.identity (a : Matrix) : Except MatrixError Matrix :=
  if a.rows ≠ a.cols then .error .invalidArgument
  else .ok ⟨a.rows, a.cols, buildData a.rows a.cols fun i j => if i = j then 1 else 0⟩

/-- getCol: throws when col is not below cols; else a fresh rows times 1
matrix with result(i, 0) = data[i][col]. -/
def Matrix.getCol (a : Matrix) (col : Nat) : Except MatrixError Matrix :=
  if a.cols ≤ col then .error .outOfRange
  else .ok ⟨a.rows, 1, buildData a.rows 1 fun i _ => a.get i col⟩

/-- setCol: throws OutOfRange when col is not below cols, then
DimensionMismatch unless colMatrix is rows times 1; else the loop
data[i][col] = colMatrix(i, 0) for i < rows. -/
def Matrix.setCol (a : Matrix) (col : Nat) (cm : Matrix) : Except MatrixError Matrix :=
  if a.cols ≤ col then .error .outOfRange
  else if cm.cols ≠ 1 ∨ cm.rows ≠ a.rows then .error .dimensionMismatch
  else .ok ⟨a.rows, a.cols,
    (List.range a.rows).foldl (fun d i => setAt d i col (cm.get i 0)) a.data⟩

/-- resize: overwrites rows and cols with the new extents, clears data and
refills it with newRows rows of newCols zeros; prior content is gone. -/
def Matrix.resize (_a : Matrix) (r c : Nat) : Matrix :=
  ⟨r, c, buildData r c fun _ _ => 0⟩

/-- State of the raw storage during the loops of randomize, together with
a flag recording whether some store fell outside its row: the C++ code
writes data[i][j] without any bound check, so such a store is undefined
behaviour; the total embedding guards each store and raises the flag
instead. -/
structure WriteState where
  data : List (List ℚ)
  oob : Bool
deriving DecidableEq, Repr

/-- One store data[i][j] = v: in bounds it updates the cell, out of bounds
(row i missing or j not below the row length) it raises the flag. -/
def guardedWrite (s : WriteState) (i j : Nat) (v : ℚ) : WriteState :=
  if h : i < s.data.length then
    if j < s.data[i].length then { s with data := s.data.set i (s.data[i].set j v) }
    else { s with oob := true }
  else { s with oob := true }

/-- The index pairs the loops of randomize visit, in order: the source
iterates i over [0, rows) and j over [0, rows) as well — the inner bound
is rows, not cols. -/
def randWrites (a : Matrix) : List (Nat × Nat) :=
  (List.range a.rows).flatMap fun i => (List.range a.rows).map fun j => (i, j)

/-- randomize(min, max): each visited cell is overwritten with the next
draw of the generator; the draws are abstracted as the stream vals,
indexed by draw count (the distribution bounds only shape the drawn
values, never the write pattern). -/
def Matrix.randomize (a : Matrix) (vals : Nat → ℚ) : WriteState :=
  (randWrites a).foldl
    (fun s p => guardedWrite s p.1 p.2 (vals (p.1 * a.rows + p.2))) ⟨a.data, false⟩

/-- xavierInit: computes limit = sqrt(6.0 / (rows + cols)) and delegates
to randomize(-limit, limit); the bounds only shape the drawn values, which
are already abstracted as vals, so the write pattern is that of
randomize. -/
def Matrix.xavierInit (a : Matrix) (vals : Nat → ℚ) : WriteState :=
  a.randomize vals

/-! Helper lemmas about the embedding. -/

theorem length_buildData (r c : Nat) (f : Nat → Nat → ℚ) :
    (buildData r c f).length = r := by
  simp [buildData]

theorem get_buildData {r c : Nat} (f : Nat → Nat → ℚ) {i j : Nat} (hi : i < r) (hj : j < c) :
    ((buildData r c f).getD i []).getD j 0 = f i j := by
  unfold buildData
  have h1 : i < ((List.range r).map fun i => (List.range c).map fun j => f i j).length := by
    simpa using hi
  rw [List.getD_eq_getElem _ _ h1]
  simp only [List.getElem_map, List.getElem_range]
  have h2 : j < ((List.range c).map fun j => f i j).length := by
    simpa using hj
  rw [List.getD_eq_getElem _ _ h2]
  simp only [List.getElem_map, List.getElem_range]

theorem WF_buildData (r c : Nat) (f : Nat → Nat → ℚ) :
    Matrix.WF ⟨r, c, buildData r c f⟩ := by
  constructor
  · simp [buildData]
  · intro row hrow
    unfold buildData at hrow
    simp only [List.mem_map] at hrow
    obtain ⟨i, _, rfl⟩ := hrow
    simp

theorem buildData_congr {r c : Nat} {f g : Nat → Nat → ℚ}
    (h : ∀ i, i < r → ∀ j, j < c → f i j = g i j) :
    buildData r c f = buildData r c g := by
  unfold buildData
  apply List.ext_getElem (by simp)
  intro n h1 h2
  have hn : n < r := by simpa using h1
  simp only [List.getElem_map, List.getElem_range]
  apply List.ext_getElem (by simp)
  intro m hm1 hm2
  have hm : m < c := by simpa using hm1
  simp only [List.getElem_map, List.getElem_range]
  exact h n hn m hm

theorem data_eq_build {a : Matrix} (h : a.WF) :
    buildData a.rows a.cols a.get = a.data := by
  obtain ⟨hlen, hrow⟩ := h
  apply List.ext_getElem (by simp [buildData, hlen])
  intro i h1 h2
  simp only [buildData, List.getElem_map, List.getElem_range]
  apply List.ext_getElem (by simp [hrow _ (List.getElem_mem h2)])
  intro j hj1 hj2
  simp only [List.getElem_map, List.getElem_range]
  unfold Matrix.get
  rw [List.getD_eq_getElem _ _ h2, List.getD_eq_getElem _ _ hj2]

theorem list_set_self {α : Type} (l : List α) (i : Nat) (h : i < l.length) :
    l.set i l[i] = l := by
  apply List.ext_getElem (by simp)
  intro n h1 h2
  rw [List.getElem_set]
  split
  · next hin => subst hin; rfl
  · rfl

theorem foldl_fixed {α β : Type} (f : β → α → β) :
    ∀ (l : List α) (d : β), (∀ x ∈ l, f d x = d) → l.foldl f d = d
  | [], _, _ => rfl
  | x :: t, d, h => by
    have hx : f d x = d := h x (List.mem_cons_self x t)
    rw [List.foldl_cons, hx]
    exact foldl_fixed f t d fun y hy => h y (List.mem_cons_of_mem x hy)

theorem forLoop_exit {St : Type} (g : Nat → Bool) (body : Nat → St → St) (i : Nat) (s : St)
    (hg : g i = false) : ∀ fuel, forLoop g body fuel i s = s
  | 0 => rfl
  | fuel + 1 => by simp [forLoop, hg]

theorem shiftGuard_zero (n : Nat) : shiftGuard 0 n = false := by
  simp [shiftGuard, Nat.zero_shiftLeft]

theorem multiply_ok {a b : Matrix} (h : a.cols = b.rows) :
    a.multiply b = .ok (Matrix.mkZero a.rows b.cols) := by
  unfold Matrix.multiply
  rw [if_neg (by omega)]
  rw [forLoop_exit (fun i => shiftGuard i a.rows) _ 0 _ (shiftGuard_zero a.rows)]

theorem ite_error_iff {α β : Type} {C : Prop} [Decidable C] (e : α) (m : β) :
    ((if C then Except.error e else Except.ok m) = Except.error e) ↔ C := by
  constructor
  · intro hx
    by_contra hc
    rw [if_neg hc] at hx
    exact Except.noConfusion hx
  · intro hc
    rw [if_pos hc]

/-! Lemmas about the guarded write sequence of randomize. -/

/-- Position p lies outside the storage d: its row is missing or its
column is not below that row length. -/
def isOOB (d : List (List ℚ)) (p : Nat × Nat) : Prop :=
  (d.map List.length).getD p.1 0 ≤ p.2 ∨ d.length ≤ p.1

theorem length_guardedWrite (s : WriteState) (i j : Nat) (v : ℚ) :
    (guardedWrite s i j v).data.length = s.data.length := by
  unfold guardedWrite
  split
  · split <;> simp
  · rfl

theorem profile_guardedWrite (s : WriteState) (i j : Nat) (v : ℚ) :
    (guardedWrite s i j v).data.map List.length = s.data.map List.length := by
  unfold guardedWrite
  split
  · next hi =>
    split
    · next hj =>
      apply List.ext_getElem (by simp)
      intro n h1 h2
      simp only [List.getElem_map]
      rw [List.getElem_set]
      split
      · next hin => subst hin; simp
      · rfl
    · rfl
  · rfl

theorem oob_guardedWrite_mono (s : WriteState) (i j : Nat) (v : ℚ) (h : s.oob = true) :
    (guardedWrite s i j v).oob = true := by
  unfold guardedWrite
  split
  · split
    · exact h
    · rfl
  · rfl

theorem guardedWrite_oob (s : WriteState) (p : Nat × Nat) (v : ℚ) (h : isOOB s.data p) :
    (guardedWrite s p.1 p.2 v).oob = true := by
  unfold guardedWrite
  split
  · next hi =>
    split
    · next hj =>
      exfalso
      unfold isOOB at h
      rcases h with h | h
      · rw [List.getD_eq_getElem _ _ (by simpa using hi), List.getElem_map] at h
        omega
      · omega
    · rfl
  · rfl

theorem isOOB_guardedWrite (s : WriteState) (i j : Nat) (v : ℚ) (p : Nat × Nat) :
    isOOB (guardedWrite s i j v).data p ↔ isOOB s.data p := by
  unfold isOOB
  rw [profile_guardedWrite, length_guardedWrite]

theorem foldl_write_oob_mono (w : Nat × Nat → ℚ) :
    ∀ (l : List (Nat × Nat)) (s : WriteState), s.oob = true →
      (l.foldl (fun s p => guardedWrite s p.1 p.2 (w p)) s).oob = true
  | [], _, h => h
  | q :: t, s, h => by
    rw [List.foldl_cons]
    exact foldl_write_oob_mono w t _ (oob_guardedWrite_mono _ _ _ _ h)

theorem foldl_write_oob (w : Nat × Nat → ℚ) :
    ∀ (l : List (Nat × Nat)) (s : WriteState) (p : Nat × Nat), p ∈ l → isOOB s.data p →
      (l.foldl (fun s p => guardedWrite s p.1 p.2 (w p)) s).oob = true
  | [], _, _, hp, _ => absurd hp (List.not_mem_nil _)
  | q :: t, s, p, hp, hoob => by
    rw [List.foldl_cons]
    rcases List.mem_cons.mp hp with rfl | ht
    · exact foldl_write_oob_mono w t _ (guardedWrite_oob _ _ _ hoob)
    · exact foldl_write_oob w t _ p ht ((isOOB_guardedWrite _ _ _ _ _).mpr hoob)

/-! Concrete matrices used by the claim theorems and witnesses. -/

/-- The matrix A of the spec scenario. -/
def Aex : Matrix := ⟨2, 2, [[1, 2], [3, 4]]⟩

/-- The matrix B of the spec scenario. -/
def Bex : Matrix := ⟨2, 2, [[5, 6], [7, 8]]⟩

/-- A 1 by 2 matrix, shape-incompatible with Aex and Bex. -/
def Cex : Matrix := ⟨1, 2, [[0, 0]]⟩

/-- A 2 by 1 matrix, taller than wide. -/
def Dex : Matrix := ⟨2, 1, [[3], [4]]⟩

/-- A 1 by 2 matrix with visible old contents, wider than tall. -/
def Rex : Matrix := ⟨1, 2, [[5, 7]]⟩

/-! Claim theorems. -/

/-- C1: the claim states that A.multiply(B) fills each entry of the
rowCount by colCount result with the dot product of the matching row of A
and column of B, giving [[19, 22], [43, 50]] on the spec scenario. The
source loops of operator* are guarded by the bitwise shifts i << rows and
j << other.cols, which are 0, hence false, at i = 0 and j = 0, so no
iteration runs and the scenario product is the zero-initialized result,
not the claimed dot products. -/
theorem multiply_shift_guard_zero :
    Aex.multiply Bex = .ok ⟨2, 2, [[0, 0], [0, 0]]⟩ ∧
    Aex.multiply Bex ≠ .ok ⟨2, 2, [[19, 22], [43, 50]]⟩ := by
  have h : Aex.multiply Bex = .ok (Matrix.mkZero 2 2) := multiply_ok rfl
  have hz : Matrix.mkZero 2 2 = ⟨2, 2, [[0, 0], [0, 0]]⟩ := by decide
  rw [h, hz]
  refine ⟨rfl, ?_⟩
  intro hco
  have hm := Except.ok.inj hco
  exact absurd (congrArg Matrix.data hm) (by decide)

/-- C2: the claim states that randomize writes all rowCount times colCount
elements, iterating the full column range. The source inner loop is
bounded by rows, so on the 1 by 2 matrix Rex with old contents 5 and 7
only column 0 is written: with every draw equal to 9 the final storage is
[[9, 7]], position (0, 1) keeping its old value 7 instead of receiving a
draw. -/
theorem randomize_skips_rectangular_tail :
    Rex.randomize (fun _ => 9) = ⟨[[9, 7]], false⟩ ∧
    Rex.randomize (fun _ => 9) ≠ ⟨[[9, 9]], false⟩ := by
  refine ⟨by decide, by decide⟩

/-- C3: for every well-formed matrix with more rows than columns, the
loops of randomize visit every pair (i, j) with i and j below rowCount, so
they reach stores at column indices at or beyond colCount, outside the
valid column range of every row; the guarded embedding flags this
out-of-bounds store, for randomize and hence for xavierInit, which
delegates to it. -/
theorem randomize_out_of_bounds (a : Matrix) (vals : Nat → ℚ) (hWF : a.WF)
    (h : a.cols < a.rows) :
    (∀ j, a.cols ≤ j → j < a.rows → (0, j) ∈ randWrites a) ∧
    (a.randomize vals).oob = true ∧ (a.xavierInit vals).oob = true := by
  obtain ⟨hlen, hrow⟩ := hWF
  have hmem : ∀ j, a.cols ≤ j → j < a.rows → (0, j) ∈ randWrites a := by
    intro j _ hj
    unfold randWrites
    rw [List.mem_flatMap]
    refine ⟨0, List.mem_range.mpr (by omega), ?_⟩
    rw [List.mem_map]
    exact ⟨j, List.mem_range.mpr hj, rfl⟩
  have h0 : 0 < a.data.length := by omega
  have hoob0 : isOOB a.data (0, a.cols) := by
    unfold isOOB
    left
    have hmap : (0 : Nat) < (a.data.map List.length).length := by simpa using h0
    rw [List.getD_eq_getElem _ _ hmap, List.getElem_map]
    rw [hrow _ (List.getElem_mem h0)]
  have hoob : (a.randomize vals).oob = true := by
    unfold Matrix.randomize
    exact foldl_write_oob (fun p => vals (p.1 * a.rows + p.2)) (randWrites a)
      ⟨a.data, false⟩ (0, a.cols) (hmem a.cols le_rfl h) hoob0
  exact ⟨hmem, hoob, hoob⟩

/-- Witness for C3: the concrete 2 by 1 matrix Dex drives randomize into
an out-of-bounds store. -/
theorem randomize_out_of_bounds_w : (Dex.randomize fun _ => 0).oob = true :=
  (randomize_out_of_bounds Dex (fun _ => 0) (by decide) (by decide)).2.1

/-- C4: add and subtract fail with DimensionMismatch exactly when the row
and column counts are not pairwise equal, multiply fails with
DimensionMismatch exactly when the inner dimensions differ, and a failing
operation yields no result matrix. -/
theorem dimension_check_iff (a b : Matrix) :
    ((a.add b = .error .dimensionMismatch) ↔ ¬(a.rows = b.rows ∧ a.cols = b.cols)) ∧
    ((a.subtract b = .error .dimensionMismatch) ↔ ¬(a.rows = b.rows ∧ a.cols = b.cols)) ∧
    ((a.multiply b = .error .dimensionMismatch) ↔ a.cols ≠ b.rows) ∧
    (∀ m : Matrix, a.add b = .ok m → a.rows = b.rows ∧ a.cols = b.cols) ∧
    (∀ m : Matrix, a.subtract b = .ok m → a.rows = b.rows ∧ a.cols = b.cols) ∧
    (∀ m : Matrix, a.multiply b = .ok m → a.cols = b.rows) := by
  refine ⟨?_, ?_, ?_, ?_, ?_, ?_⟩
  · unfold Matrix.add
    rw [ite_error_iff]
    tauto
  · unfold Matrix.subtract
    rw [ite_error_iff]
    tauto
  · unfold Matrix.multiply
    rw [ite_error_iff]
  · intro m hm
    unfold Matrix.add at hm
    by_cases hc : a.rows ≠ b.rows ∨ a.cols ≠ b.cols
    · rw [if_pos hc] at hm
      exact Except.noConfusion hm
    · tauto
  · intro m hm
    unfold Matrix.subtract at hm
    by_cases hc : a.rows ≠ b.rows ∨ a.cols ≠ b.cols
    · rw [if_pos hc] at hm
      exact Except.noConfusion hm
    · tauto
  · intro m hm
    unfold Matrix.multiply at hm
    by_cases hc : a.cols ≠ b.rows
    · rw [if_pos hc] at hm
      exact Except.noConfusion hm
    · exact not_not.mp hc

/-- Witness for C4 at concrete mismatched shapes. -/
theorem dimension_check_iff_w :
    Aex.add Cex = Except.error MatrixError.dimensionMismatch ∧
    Bex.multiply Cex = Except.error MatrixError.dimensionMismatch :=
  ⟨(dimension_check_iff Aex Cex).1.mpr (by decide),
   (dimension_check_iff Bex Cex).2.2.1.mpr (by decide)⟩

/-- C5: divide fails with InvalidArgument exactly on the zero scalar, and
on a nonzero scalar s it returns the very matrix scale(1.0 / s) returns. -/
theorem divide_zero_iff (a : Matrix) (s : ℚ) :
    ((a.divide s = .error .invalidArgument) ↔ s = 0) ∧
    (s ≠ 0 → a.divide s = .ok (a.scale (1 / s))) := by
  constructor
  · unfold Matrix.divide
    exact ite_error_iff _ _
  · intro h
    unfold Matrix.divide
    rw [if_neg h]

/-- Witness for C5 at the nonzero scalar 2. -/
theorem divide_zero_iff_w : Aex.divide 2 = .ok (Aex.scale (1 / 2)) :=
  (divide_zero_iff Aex 2).2 (by norm_num)

/-- C6: on shape-incompatible operands the in-place add and subtract
propagate the same DimensionMismatch condition as their non-mutating
counterparts while the receiver keeps its dimensions and every element:
the throw happens inside the non-mutating operator, before the assignment
back to the receiver runs. -/
theorem inPlace_failure_preserves (a b : Matrix)
    (h : ¬(a.rows = b.rows ∧ a.cols = b.cols)) :
    a.add b = .error .dimensionMismatch ∧
    a.addInPlace b = (a, some .dimensionMismatch) ∧
    a.subtract b = .error .dimensionMismatch ∧
    a.subtractInPlace b = (a, some .dimensionMismatch) := by
  have hc : a.rows ≠ b.rows ∨ a.cols ≠ b.cols := by tauto
  have h1 : a.add b = .error .dimensionMismatch := by
    unfold Matrix.add
    rw [if_pos hc]
  have h2 : a.subtract b = .error .dimensionMismatch := by
    unfold Matrix.subtract
    rw [if_pos hc]
  refine ⟨h1, ?_, h2, ?_⟩
  · unfold Matrix.addInPlace
    rw [h1]
  · unfold Matrix.subtractInPlace
    rw [h2]

/-- Witness for C6 at concrete mismatched shapes. -/
theorem inPlace_failure_preserves_w :
    Aex.addInPlace Cex = (Aex, some MatrixError.dimensionMismatch) :=
  (inPlace_failure_preserves Aex Cex (by decide)).2.1

/-- C7: identity fails with InvalidArgument exactly when the matrix is not
square; on a square matrix the new state is well formed, keeps the
dimensions, and holds 1 on the diagonal and 0 off it. -/
theorem identity_iff_square (a : Matrix) :
    ((a.identity = .error .invalidArgument) ↔ a.rows ≠ a.cols) ∧
    (a.rows = a.cols → ∃ m : Matrix, a.identity = .ok m ∧ m.rows = a.rows ∧
      m.cols = a.cols ∧ m.WF ∧
      ∀ i j, i < a.rows → j < a.cols → m.get i j = if i = j then 1 else 0) := by
  constructor
  · unfold Matrix.identity
    rw [ite_error_iff]
  · intro hsq
    refine ⟨⟨a.rows, a.cols, buildData a.rows a.cols fun i j => if i = j then 1 else 0⟩,
      ?_, rfl, rfl, WF_buildData _ _ _, ?_⟩
    · unfold Matrix.identity
      rw [if_neg (by omega)]
    · intro i j hi hj
      exact get_buildData _ hi hj

/-- Witness for C7 on the square matrix Aex. -/
theorem identity_iff_square_w :
    ∃ m : Matrix, Aex.identity = .ok m ∧ m.rows = Aex.rows ∧ m.cols = Aex.cols ∧ m.WF ∧
      ∀ i j, i < Aex.rows → j < Aex.cols → m.get i j = if i = j then 1 else 0 :=
  (identity_iff_square Aex).2 rfl

/-- C8: for a well-formed matrix and a valid column index, writing back
the extracted column succeeds and reproduces the original matrix, shape
and elements alike. -/
theorem setCol_getCol_roundtrip (a : Matrix) (c : Nat) (hWF : a.WF) (hc : c < a.cols) :
    (a.getCol c).bind (a.setCol c) = Except.ok a := by
  obtain ⟨hlen, hrow⟩ := hWF
  unfold Matrix.getCol
  rw [if_neg (by omega)]
  show a.setCol c ⟨a.rows, 1, buildData a.rows 1 fun i _ => a.get i c⟩ = Except.ok a
  unfold Matrix.setCol
  rw [if_neg (by omega), if_neg (by simp)]
  refine congrArg (fun d => Except.ok (Matrix.mk a.rows a.cols d)) (foldl_fixed _ _ _ ?_)
  intro i hi
  have hiR : i < a.rows := List.mem_range.mp hi
  have hgc : Matrix.get ⟨a.rows, 1, buildData a.rows 1 fun i _ => a.get i c⟩ i 0 = a.get i c :=
    get_buildData _ hiR Nat.one_pos
  rw [hgc]
  unfold setAt
  have hiL : i < a.data.length := by omega
  rw [List.getD_eq_getElem _ _ hiL]
  have hcL : c < a.data[i].length := by
    rw [hrow _ (List.getElem_mem hiL)]
    exact hc
  have hval : a.get i c = a.data[i][c] := by
    unfold Matrix.get
    rw [List.getD_eq_getElem _ _ hiL, List.getD_eq_getElem _ _ hcL]
  rw [hval, list_set_self _ _ hcL, list_set_self _ _ hiL]

/-- Witness for C8 on Aex at column 1. -/
theorem setCol_getCol_roundtrip_w : (Aex.getCol 1).bind (Aex.setCol 1) = Except.ok Aex :=
  setCol_getCol_roundtrip Aex 1 (by decide) (by decide)

/-- C9: transpose always succeeds, swaps the dimensions, mirrors every
element across the diagonal, and applied twice reproduces the original
well-formed matrix, shape and elements alike. -/
theorem transpose_involution (a : Matrix) (hWF : a.WF) :
    a.transpose.rows = a.cols ∧ a.transpose.cols = a.rows ∧ a.transpose.WF ∧
    (∀ i j, i < a.rows → j < a.cols → a.transpose.get j i = a.get i j) ∧
    a.transpose.transpose = a := by
  have hget : ∀ i j, i < a.rows → j < a.cols → a.transpose.get j i = a.get i j := by
    intro i j hi hj
    exact get_buildData _ hj hi
  refine ⟨rfl, rfl, WF_buildData _ _ _, hget, ?_⟩
  show (⟨a.rows, a.cols, buildData a.rows a.cols fun p q => a.transpose.get q p⟩ : Matrix) = a
  have hdata : buildData a.rows a.cols (fun p q => a.transpose.get q p) = a.data :=
    (buildData_congr fun i hi j hj => hget i j hi hj).trans (data_eq_build hWF)
  rw [hdata]

/-- Witness for C9 on Aex. -/
theorem transpose_involution_w : Aex.transpose.transpose = Aex :=
  (transpose_involution Aex (by decide)).2.2.2.2

/-- C10: resize always succeeds and leaves an r by c well-formed matrix
whose elements are all 0, whatever the prior dimensions and contents. -/
theorem resize_always_zero (a : Matrix) (r c : Nat) :
    (a.resize r c).rows = r ∧ (a.resize r c).cols = c ∧ (a.resize r c).WF ∧
    ∀ i j, i < r → j < c → (a.resize r c).get i j = 0 := by
  refine ⟨rfl, rfl, WF_buildData _ _ _, ?_⟩
  intro i j hi hj
  exact get_buildData _ hi hj

/-- Witness for C10: resizing the 2 by 2 matrix Aex to 3 by 2 zeroes the
content. -/
theorem resize_always_zero_w : (Aex.resize 3 2).get 0 1 = 0 :=
  (resize_always_zero Aex 3 2).2.2.2 0 1 (by decide) (by decide)

end MatrixSpec
